import Mathlib

/-!
# Ordinal Accuracy Evaluator — verification development

The repository is a teaching notebook (`CERF_sentence_level_classification.ipynb`)
whose accuracy-computation cells are left as `[ TODO ] calculate accuracy`
placeholders; the evaluator itself is therefore modelled here from the
specification's contract (§3, §4.1, §7 of the spec), faithful to its words:
six ordered levels A1 < A2 < B1 < B2 < C1 < C2 with ranks 0..5, groups
`rank / 2`, and three accuracy metrics (exact, coarse, fuzzy) over paired
label sequences, with `InvalidInput` / `InvalidLevel` error conditions.
-/

/-- The six ordinal proficiency levels, ranks 0..5
    (A1 < A2 < B1 < B2 < C1 < C2). -/
inductive Level : Type
  | A1 | A2 | B1 | B2 | C1 | C2
  deriving DecidableEq, Repr

/-- Integer rank 0..5 of a level. -/
def Level.rank : Level → Nat
  | .A1 => 0
  | .A2 => 1
  | .B1 => 2
  | .B2 => 3
  | .C1 => 4
  | .C2 => 5

/-- The label string of a level, as used in the notebook's dataset. -/
def Level.symbol : Level → String
  | .A1 => "A1"
  | .A2 => "A2"
  | .B1 => "B1"
  | .B2 => "B2"
  | .C1 => "C1"
  | .C2 => "C2"

/-- Coarse group of a rank: `group(rank) = rank / 2` (integer division),
    giving the partition \x7bL0,L1\x7d, \x7bL2,L3\x7d, \x7bL4,L5\x7d. -/
def group (rank : Nat) : Nat := rank / 2

/-- Modelled from the spec: parse a raw label string into a `Level`;
    a string outside the fixed six-symbol set is rejected (`none`). -/
def parseLevel (s : String) : Option Level :=
  if s = "A1" then some .A1
  else if s = "A2" then some .A2
  else if s = "B1" then some .B1
  else if s = "B2" then some .B2
  else if s = "C1" then some .C1
  else if s = "C2" then some .C2
  else none

/-- Modelled from the spec: parse a whole sequence of label strings,
    failing on the first element outside the six-symbol set. -/
def parseLevels : List String → Option (List Level)
  | [] => some []
  | s :: rest =>
    match parseLevel s, parseLevels rest with
    | some l, some ls => some (l :: ls)
    | _, _ => none

/-- Error conditions of the evaluator (spec §7). -/
inductive EvalError : Type
  | InvalidInput | InvalidLevel
  deriving DecidableEq, Repr

/-- The three accuracy metrics returned by `evaluate`, as exact rationals. -/
structure EvalResult : Type where
  exact : ℚ
  coarse : ℚ
  fuzzy : ℚ
  deriving DecidableEq, Repr

/-- A position is an exact match when the two ranks are equal. -/
def exactMatch (p t : Level) : Bool := p.rank == t.rank

/-- A position is a coarse match when the two groups are equal. -/
def coarseMatch (p t : Level) : Bool := group p.rank == group t.rank

/-- A position is a fuzzy match when the ranks differ by at most 1. -/
def fuzzyMatch (p t : Level) : Bool :=
  ((p.rank : Int) - (t.rank : Int)).natAbs ≤ 1

/-- Number of exactly matching positions of two paired level sequences. -/
def exactCount (ps ts : List Level) : Nat :=
  (ps.zip ts).countP fun pt => exactMatch pt.1 pt.2

/-- Number of coarsely (group-)matching positions. -/
def coarseCount (ps ts : List Level) : Nat :=
  (ps.zip ts).countP fun pt => coarseMatch pt.1 pt.2

/-- Number of fuzzily (±1-rank) matching positions. -/
def fuzzyCount (ps ts : List Level) : Nat :=
  (ps.zip ts).countP fun pt => fuzzyMatch pt.1 pt.2

/-- Modelled from the spec: the Ordinal Accuracy Evaluator
    (`evaluate(predicted, truth) -> \x7bexact, coarse, fuzzy\x7d`, spec §4.1);
    the notebook's accuracy cells are TODO placeholders, so the
    implementation follows the spec's contract. Errors: `InvalidInput`
    if the two sequences differ in length; `InvalidLevel` if some element
    is outside the six-symbol set; for the zero-length edge case this
    model chooses (and hereby documents) the `InvalidInput` failure branch
    the spec offers. Otherwise the three metrics are the matching counts
    divided by the common length `N`. -/
def evaluate (predicted truth : List String) : Except EvalError EvalResult :=
  if predicted.length = truth.length then
    match parseLevels predicted, parseLevels truth with
    | some ps, some ts =>
      if ps.length = 0 then .error .InvalidInput
      else
        .ok { exact := (exactCount ps ts : ℚ) / (ps.length : ℚ)
              coarse := (coarseCount ps ts : ℚ) / (ps.length : ℚ)
              fuzzy := (fuzzyCount ps ts : ℚ) / (ps.length : ℚ) }
    | _, _ => .error .InvalidLevel
  else .error .InvalidInput

/-! ## Basic round-trip and evaluation lemmas -/

theorem parseLevel_symbol (l : Level) : parseLevel l.symbol = some l := by
  cases l <;> rfl

theorem parseLevels_map_symbol (ls : List Level) :
    parseLevels (ls.map Level.symbol) = some ls := by
  induction ls with
  | nil => rfl
  | cons l rest ih => simp [parseLevels, parseLevel_symbol, ih]

/-- On equal-length nonempty sequences of valid levels, `evaluate` succeeds
    and returns the three matching counts each divided by the length. -/
theorem evaluate_ok (ps ts : List Level)
    (hlen : ps.length = ts.length) (hpos : 0 < ps.length) :
    evaluate (ps.map Level.symbol) (ts.map Level.symbol) =
      .ok { exact := (exactCount ps ts : ℚ) / (ps.length : ℚ)
            coarse := (coarseCount ps ts : ℚ) / (ps.length : ℚ)
            fuzzy := (fuzzyCount ps ts : ℚ) / (ps.length : ℚ) } := by
  have h0 : ps.length ≠ 0 := Nat.pos_iff_ne_zero.mp hpos
  unfold evaluate
  rw [parseLevels_map_symbol, parseLevels_map_symbol, List.length_map,
    List.length_map, if_pos hlen]
  simp only [if_neg h0]

theorem zip_length_left (ps ts : List Level) (hlen : ps.length = ts.length) :
    (ps.zip ts).length = ps.length := by
  rw [List.length_zip, hlen, Nat.min_self]

/-- Each matching count is at most the common length. -/
theorem count_le_length (ps ts : List Level) (hlen : ps.length = ts.length)
    (f : Level → Level → Bool) :
    ((ps.zip ts).countP fun pt => f pt.1 pt.2) ≤ ps.length := by
  calc ((ps.zip ts).countP fun pt => f pt.1 pt.2) ≤ (ps.zip ts).length :=
        List.countP_le_length (fun pt : Level × Level => f pt.1 pt.2)
    _ = ps.length := zip_length_left ps ts hlen

/-- A ratio `count / N` of a matching count lies in `[0, 1]`. -/
theorem ratio_mem_unit (c n : Nat) (hc : c ≤ n) (hn : 0 < n) :
    0 ≤ (c : ℚ) / (n : ℚ) ∧ (c : ℚ) / (n : ℚ) ≤ 1 := by
  have hn' : (0 : ℚ) < (n : ℚ) := by exact_mod_cast hn
  constructor
  · positivity
  · rw [div_le_one hn']
    exact_mod_cast hc

/-! ## Per-pair implications and symmetry of the three match notions -/

theorem exactMatch_imp_coarseMatch (p t : Level) :
    exactMatch p t = true → coarseMatch p t = true := by
  cases p <;> cases t <;> decide

theorem exactMatch_imp_fuzzyMatch (p t : Level) :
    exactMatch p t = true → fuzzyMatch p t = true := by
  cases p <;> cases t <;> decide

theorem exactMatch_comm (p t : Level) : exactMatch p t = exactMatch t p := by
  cases p <;> cases t <;> decide

theorem coarseMatch_comm (p t : Level) : coarseMatch p t = coarseMatch t p := by
  cases p <;> cases t <;> decide

theorem fuzzyMatch_comm (p t : Level) : fuzzyMatch p t = fuzzyMatch t p := by
  cases p <;> cases t <;> decide

theorem exactCount_le_coarseCount (ps ts : List Level) :
    exactCount ps ts ≤ coarseCount ps ts :=
  List.countP_mono_left fun x _ h => exactMatch_imp_coarseMatch x.1 x.2 h

theorem exactCount_le_fuzzyCount (ps ts : List Level) :
    exactCount ps ts ≤ fuzzyCount ps ts :=
  List.countP_mono_left fun x _ h => exactMatch_imp_fuzzyMatch x.1 x.2 h

theorem countP_zip_swap (f : Level → Level → Bool)
    (hsym : ∀ p t, f p t = f t p) (ps ts : List Level) :
    ((ts.zip ps).countP fun pt => f pt.1 pt.2) =
      ((ps.zip ts).countP fun pt => f pt.1 pt.2) := by
  rw [← List.zip_swap ps ts, List.countP_map]
  apply List.countP_congr
  intro x _
  simp only [Function.comp_apply, Prod.fst_swap, Prod.snd_swap]
  rw [hsym x.2 x.1]

theorem exactCount_comm (ps ts : List Level) :
    exactCount ts ps = exactCount ps ts :=
  countP_zip_swap exactMatch exactMatch_comm ps ts

theorem coarseCount_comm (ps ts : List Level) :
    coarseCount ts ps = coarseCount ps ts :=
  countP_zip_swap coarseMatch coarseMatch_comm ps ts

theorem fuzzyCount_comm (ps ts : List Level) :
    fuzzyCount ts ps = fuzzyCount ps ts :=
  countP_zip_swap fuzzyMatch fuzzyMatch_comm ps ts

theorem ratio_mono (a b n : Nat) (hab : a ≤ b) (hn : 0 < n) :
    (a : ℚ) / (n : ℚ) ≤ (b : ℚ) / (n : ℚ) := by
  have hn' : (0 : ℚ) < (n : ℚ) := by exact_mod_cast hn
  have hab' : (a : ℚ) ≤ (b : ℚ) := by exact_mod_cast hab
  exact (div_le_div_iff_of_pos_right hn').mpr hab'

/-- A sequence fails to parse exactly when some element is outside the
    six-symbol set. -/
theorem parseLevels_eq_none (l : List String) :
    parseLevels l = none ↔ ∃ s ∈ l, parseLevel s = none := by
  induction l with
  | nil => simp [parseLevels]
  | cons s rest ih =>
    cases h : parseLevel s with
    | none =>
      simp only [parseLevels, h]
      exact ⟨fun _ => ⟨s, List.mem_cons_self s rest, h⟩, fun _ => trivial⟩
    | some lv =>
      cases h2 : parseLevels rest with
      | none =>
        simp only [parseLevels, h, h2]
        refine ⟨fun _ => ?_, fun _ => trivial⟩
        obtain ⟨x, hx, hxn⟩ := ih.mp h2
        exact ⟨x, List.mem_cons_of_mem s hx, hxn⟩
      | some ls =>
        simp only [parseLevels, h, h2]
        constructor
        · intro hc; exact Option.noConfusion hc
        · rintro ⟨x, hx, hxn⟩
          rcases List.mem_cons.mp hx with rfl | hx'
          · rw [h] at hxn; exact Option.noConfusion hxn
          · have hnone : parseLevels rest = none := ih.mpr ⟨x, hx', hxn⟩
            rw [h2] at hnone; exact Option.noConfusion hnone

/-! ## Label-encoder / classifier-head model

The notebook computes `LABEL_COUNT = len(encoder.categories_[0])` from the
fitted label encoder (the fit itself is a TODO cell; the recorded output is
`6`) and constructs the model with `num_labels = LABEL_COUNT`; prediction
takes the argmax of the model's logit vector and decodes it back to a label
string. -/

/-- Modelled from the spec: the category vocabulary the label encoder learns
    from the dataset (the `encoder = ...` fit is a TODO cell in the notebook;
    its hint and the recorded output fix the six CERF levels). -/
def encoderCategories : List String := ["A1", "A2", "B1", "B2", "C1", "C2"]

/-- `LABEL_COUNT = len(encoder.categories_[0])`, the number of learned
    categories. -/
def LABEL_COUNT : Nat := encoderCategories.length

/-- Modelled from the spec: index of the largest logit (first occurrence of
    the maximum); the notebook's inference step is a library call plus a
    TODO cell, so argmax is modelled directly. -/
def argmax : List ℚ → Nat
  | [] => 0
  | [_] => 0
  | x :: y :: xs =>
    let j := argmax (y :: xs)
    if x < (y :: xs).getD j 0 then j + 1 else 0

/-- Decode a class index back to a label string via the encoder's
    categories. -/
def decodeLabel (i : Nat) : String := encoderCategories.getD i ""

theorem argmax_lt_length : ∀ l : List ℚ, l ≠ [] → argmax l < l.length
  | [], h => absurd rfl h
  | [_], _ => by simp [argmax]
  | x :: y :: xs, _ => by
    have ih := argmax_lt_length (y :: xs) (by simp)
    simp only [argmax]
    split
    · exact Nat.succ_lt_succ ih
    · simp

/-! ## Claims -/

/-- C1: for every pair of equal-length sequences `predicted` and `truth` of
    valid levels with length N > 0, `evaluate` returns an exact accuracy
    equal to the number of positions i with
    rank(predicted[i]) = rank(truth[i]) divided by N, and this value lies
    in [0, 1]. -/
theorem C1_exact_accuracy (ps ts : List Level)
    (hlen : ps.length = ts.length) (hpos : 0 < ps.length) :
    ∃ r : EvalResult,
      evaluate (ps.map Level.symbol) (ts.map Level.symbol) = .ok r ∧
      r.exact = (((ps.zip ts).countP fun pt => pt.1.rank == pt.2.rank : Nat) : ℚ) /
          (ps.length : ℚ) ∧
      0 ≤ r.exact ∧ r.exact ≤ 1 := by
  refine ⟨_, evaluate_ok ps ts hlen hpos, rfl, ?_⟩
  exact ratio_mem_unit _ _ (count_le_length ps ts hlen exactMatch) hpos

theorem C1_exact_accuracy_witness :
    ∃ r : EvalResult,
      evaluate ([Level.A1, Level.B1].map Level.symbol)
          ([Level.A1, Level.C2].map Level.symbol) = .ok r ∧
      r.exact = ((([Level.A1, Level.B1].zip [Level.A1, Level.C2]).countP
            fun pt => pt.1.rank == pt.2.rank : Nat) : ℚ) /
          (([Level.A1, Level.B1] : List Level).length : ℚ) ∧
      0 ≤ r.exact ∧ r.exact ≤ 1 :=
  C1_exact_accuracy [Level.A1, Level.B1] [Level.A1, Level.C2] (by decide) (by decide)

/-- C2: for every pair of equal-length sequences of valid levels with
    length N > 0, `evaluate` returns a coarse accuracy equal to the number
    of positions i with group(rank(predicted[i])) = group(rank(truth[i]))
    divided by N, where group(rank) = rank / 2 by integer division. -/
theorem C2_coarse_accuracy (ps ts : List Level)
    (hlen : ps.length = ts.length) (hpos : 0 < ps.length) :
    ∃ r : EvalResult,
      evaluate (ps.map Level.symbol) (ts.map Level.symbol) = .ok r ∧
      r.coarse = (((ps.zip ts).countP
            fun pt => group pt.1.rank == group pt.2.rank : Nat) : ℚ) /
          (ps.length : ℚ) :=
  ⟨_, evaluate_ok ps ts hlen hpos, rfl⟩

theorem C2_coarse_accuracy_witness :
    ∃ r : EvalResult,
      evaluate ([Level.A1, Level.B1].map Level.symbol)
          ([Level.A2, Level.C2].map Level.symbol) = .ok r ∧
      r.coarse = ((([Level.A1, Level.B1].zip [Level.A2, Level.C2]).countP
            fun pt => group pt.1.rank == group pt.2.rank : Nat) : ℚ) /
          (([Level.A1, Level.B1] : List Level).length : ℚ) :=
  C2_coarse_accuracy [Level.A1, Level.B1] [Level.A2, Level.C2] (by decide) (by decide)

/-- C3: for every pair of equal-length sequences of valid levels with
    length N > 0, `evaluate` returns a fuzzy accuracy equal to the number
    of positions i with |rank(predicted[i]) - rank(truth[i])| <= 1 divided
    by N. -/
theorem C3_fuzzy_accuracy (ps ts : List Level)
    (hlen : ps.length = ts.length) (hpos : 0 < ps.length) :
    ∃ r : EvalResult,
      evaluate (ps.map Level.symbol) (ts.map Level.symbol) = .ok r ∧
      r.fuzzy = (((ps.zip ts).countP
            fun pt => ((pt.1.rank : Int) - (pt.2.rank : Int)).natAbs ≤ 1 : Nat) : ℚ) /
          (ps.length : ℚ) :=
  ⟨_, evaluate_ok ps ts hlen hpos, rfl⟩

theorem C3_fuzzy_accuracy_witness :
    ∃ r : EvalResult,
      evaluate ([Level.A1, Level.B1].map Level.symbol)
          ([Level.A2, Level.C2].map Level.symbol) = .ok r ∧
      r.fuzzy = ((([Level.A1, Level.B1].zip [Level.A2, Level.C2]).countP
            fun pt => ((pt.1.rank : Int) - (pt.2.rank : Int)).natAbs ≤ 1 : Nat) : ℚ) /
          (([Level.A1, Level.B1] : List Level).length : ℚ) :=
  C3_fuzzy_accuracy [Level.A1, Level.B1] [Level.A2, Level.C2] (by decide) (by decide)

/-- C4: for every pair of equal-length sequences of valid levels with
    length N > 0, the three results of `evaluate` satisfy
    0 <= exact <= coarse and 0 <= exact <= fuzzy <= 1. -/
theorem C4_monotonicity (ps ts : List Level)
    (hlen : ps.length = ts.length) (hpos : 0 < ps.length) :
    ∃ r : EvalResult,
      evaluate (ps.map Level.symbol) (ts.map Level.symbol) = .ok r ∧
      0 ≤ r.exact ∧ r.exact ≤ r.coarse ∧ r.exact ≤ r.fuzzy ∧ r.fuzzy ≤ 1 := by
  refine ⟨_, evaluate_ok ps ts hlen hpos, ?_, ?_, ?_, ?_⟩
  · exact (ratio_mem_unit _ _ (count_le_length ps ts hlen exactMatch) hpos).1
  · exact ratio_mono _ _ _ (exactCount_le_coarseCount ps ts) hpos
  · exact ratio_mono _ _ _ (exactCount_le_fuzzyCount ps ts) hpos
  · exact (ratio_mem_unit _ _ (count_le_length ps ts hlen fuzzyMatch) hpos).2

theorem C4_monotonicity_witness :
    ∃ r : EvalResult,
      evaluate ([Level.A1, Level.B1].map Level.symbol)
          ([Level.A2, Level.C2].map Level.symbol) = .ok r ∧
      0 ≤ r.exact ∧ r.exact ≤ r.coarse ∧ r.exact ≤ r.fuzzy ∧ r.fuzzy ≤ 1 :=
  C4_monotonicity [Level.A1, Level.B1] [Level.A2, Level.C2] (by decide) (by decide)

/-- C9: for every pair of equal-length sequences of valid levels with
    length N > 0, swapping the two arguments of `evaluate` leaves the
    exact, coarse, and fuzzy results unchanged. -/
theorem C9_symmetry (ps ts : List Level)
    (hlen : ps.length = ts.length) (hpos : 0 < ps.length) :
    evaluate (ps.map Level.symbol) (ts.map Level.symbol) =
      evaluate (ts.map Level.symbol) (ps.map Level.symbol) := by
  rw [evaluate_ok ps ts hlen hpos,
    evaluate_ok ts ps hlen.symm (hlen ▸ hpos),
    exactCount_comm, coarseCount_comm, fuzzyCount_comm, hlen]

theorem C9_symmetry_witness :
    evaluate ([Level.A1, Level.B1].map Level.symbol)
        ([Level.A2, Level.C2].map Level.symbol) =
      evaluate ([Level.A2, Level.C2].map Level.symbol)
        ([Level.A1, Level.B1].map Level.symbol) :=
  C9_symmetry [Level.A1, Level.B1] [Level.A2, Level.C2] (by decide) (by decide)

/-- C5 counterexample: on predicted = [A1,A2,B1,B2,C1,C2] and
    truth = [A2,B1,B1,B2,B2,C2] the claimed result
    (exact 3/6, coarse 4/6, fuzzy 5/6) is not what `evaluate` returns:
    every rank difference on this input is at most 1, so the fuzzy
    accuracy is 6/6 = 1, not 5/6. -/
theorem C5_example_counterexample :
    evaluate ["A1", "A2", "B1", "B2", "C1", "C2"]
        ["A2", "B1", "B1", "B2", "B2", "C2"] ≠
      Except.ok { exact := 3 / 6, coarse := 4 / 6, fuzzy := 5 / 6 } := by
  show evaluate
      (List.map Level.symbol [Level.A1, Level.A2, Level.B1, Level.B2, Level.C1, Level.C2])
      (List.map Level.symbol [Level.A2, Level.B1, Level.B1, Level.B2, Level.B2, Level.C2]) ≠ _
  rw [evaluate_ok
    [Level.A1, Level.A2, Level.B1, Level.B2, Level.C1, Level.C2]
    [Level.A2, Level.B1, Level.B1, Level.B2, Level.B2, Level.C2]
    (by decide) (by decide)]
  intro hcontra
  have hq : ((fuzzyCount
        [Level.A1, Level.A2, Level.B1, Level.B2, Level.C1, Level.C2]
        [Level.A2, Level.B1, Level.B1, Level.B2, Level.B2, Level.C2] : Nat) : ℚ) /
      (([Level.A1, Level.A2, Level.B1, Level.B2, Level.C1, Level.C2] : List Level).length : ℚ) =
      5 / 6 := congrArg EvalResult.fuzzy (Except.ok.inj hcontra)
  rw [show fuzzyCount
        [Level.A1, Level.A2, Level.B1, Level.B2, Level.C1, Level.C2]
        [Level.A2, Level.B1, Level.B1, Level.B2, Level.B2, Level.C2] = 6 from by decide] at hq
  norm_num at hq

/-- C5 amended: on predicted = [A1,A2,B1,B2,C1,C2] and
    truth = [A2,B1,B1,B2,B2,C2], `evaluate` returns exact = 3/6 = 0.5,
    coarse = 4/6, and fuzzy = 6/6 = 1 (the notebook's fuzzy worked example
    uses a different truth sequence, ranks [0,1,1,3,3,3], for its 5/6). -/
theorem C5_example_amended :
    evaluate ["A1", "A2", "B1", "B2", "C1", "C2"]
        ["A2", "B1", "B1", "B2", "B2", "C2"] =
      Except.ok { exact := 3 / 6, coarse := 4 / 6, fuzzy := 6 / 6 } := by
  show evaluate
      (List.map Level.symbol [Level.A1, Level.A2, Level.B1, Level.B2, Level.C1, Level.C2])
      (List.map Level.symbol [Level.A2, Level.B1, Level.B1, Level.B2, Level.B2, Level.C2]) = _
  rw [evaluate_ok
    [Level.A1, Level.A2, Level.B1, Level.B2, Level.C1, Level.C2]
    [Level.A2, Level.B1, Level.B1, Level.B2, Level.B2, Level.C2]
    (by decide) (by decide),
    show exactCount
        [Level.A1, Level.A2, Level.B1, Level.B2, Level.C1, Level.C2]
        [Level.A2, Level.B1, Level.B1, Level.B2, Level.B2, Level.C2] = 3 from by decide,
    show coarseCount
        [Level.A1, Level.A2, Level.B1, Level.B2, Level.C1, Level.C2]
        [Level.A2, Level.B1, Level.B1, Level.B2, Level.B2, Level.C2] = 4 from by decide,
    show fuzzyCount
        [Level.A1, Level.A2, Level.B1, Level.B2, Level.C1, Level.C2]
        [Level.A2, Level.B1, Level.B1, Level.B2, Level.B2, Level.C2] = 6 from by decide]
  norm_num

/-- C6: fuzzy matches are not a subset of coarse matches: on the
    one-element input predicted = [A2] (rank 1), truth = [B1] (rank 2),
    `evaluate` returns fuzzy = 1 and coarse = 0 (the rank distance is 1 but
    the pair crosses the group boundary), so fuzzy accuracy cannot be
    derived from coarse accuracy. -/
theorem C6_fuzzy_not_coarse :
    evaluate ["A2"] ["B1"] =
      Except.ok { exact := 0, coarse := 0, fuzzy := 1 } := by
  show evaluate (List.map Level.symbol [Level.A2])
      (List.map Level.symbol [Level.B1]) = _
  rw [evaluate_ok [Level.A2] [Level.B1] (by decide) (by decide),
    show exactCount [Level.A2] [Level.B1] = 0 from by decide,
    show coarseCount [Level.A2] [Level.B1] = 0 from by decide,
    show fuzzyCount [Level.A2] [Level.B1] = 1 from by decide]
  norm_num

/-- C7: `evaluate` fails with `InvalidInput` whenever the two input
    sequences differ in length (for any nonzero length difference, never
    truncating to the shorter length), and fails with `InvalidLevel`
    whenever the lengths agree but some element of either sequence is not
    one of the six recognized symbols. -/
theorem C7_error_conditions (predicted truth : List String) :
    (predicted.length ≠ truth.length →
      evaluate predicted truth = .error .InvalidInput) ∧
    (predicted.length = truth.length →
      ((∃ s ∈ predicted, parseLevel s = none) ∨
        (∃ s ∈ truth, parseLevel s = none)) →
      evaluate predicted truth = .error .InvalidLevel) := by
  constructor
  · intro h
    unfold evaluate
    rw [if_neg h]
  · intro hlen hbad
    unfold evaluate
    rw [if_pos hlen]
    rcases hbad with hb | hb
    · rw [(parseLevels_eq_none predicted).mpr hb]
    · rw [(parseLevels_eq_none truth).mpr hb]
      cases parseLevels predicted <;> rfl

theorem C7_error_conditions_witness :
    evaluate ["A1", "A2", "B1", "B2"] ["A1", "A2", "B1", "B2", "C1", "C2"] =
        .error .InvalidInput ∧
    evaluate ["D1"] ["A1"] = .error .InvalidLevel :=
  ⟨(C7_error_conditions ["A1", "A2", "B1", "B2"]
      ["A1", "A2", "B1", "B2", "C1", "C2"]).1 (by decide),
   (C7_error_conditions ["D1"] ["A1"]).2 (by decide)
      (Or.inl ⟨"D1", by decide, by decide⟩)⟩

/-- C8: for the empty input (both sequences of length N = 0), `evaluate`
    fails with an `InvalidInput` error; the modelled evaluator explicitly
    documents this choice (spec §4.1 / §7), so the behaviour at N = 0 is
    not left implicit. -/
theorem C8_empty_input :
    evaluate [] [] = .error .InvalidInput := rfl

/-- C10: the classifier head size always matches the label set:
    LABEL_COUNT is the number of categories learned by the label encoder
    (6), and for every logit vector whose length is LABEL_COUNT (the model
    is constructed with num_labels = LABEL_COUNT), the argmax is a class
    index below LABEL_COUNT which decodes to one of the six levels — the
    prediction pipeline can never emit a label outside the six-symbol
    set. -/
theorem C10_head_matches_labels (logits : List ℚ)
    (h : logits.length = LABEL_COUNT) :
    LABEL_COUNT = 6 ∧
    argmax logits < LABEL_COUNT ∧
    ∃ l : Level, parseLevel (decodeLabel (argmax logits)) = some l := by
  have h6 : LABEL_COUNT = 6 := rfl
  have hne : logits ≠ [] := by
    intro hnil
    rw [hnil] at h
    simp [LABEL_COUNT, encoderCategories] at h
  have hlt : argmax logits < LABEL_COUNT := h ▸ argmax_lt_length logits hne
  refine ⟨h6, hlt, ?_⟩
  have h5 : argmax logits < 6 := h6 ▸ hlt
  have hcases : argmax logits = 0 ∨ argmax logits = 1 ∨ argmax logits = 2 ∨
      argmax logits = 3 ∨ argmax logits = 4 ∨ argmax logits = 5 := by omega
  rcases hcases with hc | hc | hc | hc | hc | hc <;> rw [hc]
  · exact ⟨.A1, rfl⟩
  · exact ⟨.A2, rfl⟩
  · exact ⟨.B1, rfl⟩
  · exact ⟨.B2, rfl⟩
  · exact ⟨.C1, rfl⟩
  · exact ⟨.C2, rfl⟩

theorem C10_head_matches_labels_witness :
    LABEL_COUNT = 6 ∧
    argmax [(0 : ℚ), 1, 2, 3, 4, 5] < LABEL_COUNT ∧
    ∃ l : Level,
      parseLevel (decodeLabel (argmax [(0 : ℚ), 1, 2, 3, 4, 5])) = some l :=
  C10_head_matches_labels [0, 1, 2, 3, 4, 5] rfl
